import Mathlib

/-!
Verification of the `ureq` response-body pipeline (`src/body/mod.rs`) and the
agent configuration (`src/config.rs`).

The body pipeline is embedded shallowly.  The protocol `Unit`/`Flow` and the
`Connection` are collaborators of `src/body/mod.rs` whose code is not part of
the excerpt; following the spec (sections 4.5 and 4.6) they are modelled as a
content-length framed byte stream: the connection delivers the raw body bytes
of the wire, the flow reports `AwaitInput` while body bytes remain and
`Reset { must_close }` at clean end of body.  Bytes are `Nat` (u8 values are
never arithmetically manipulated by the code under study).  The external
decompressors (flate2 `MultiGzDecoder`, `brotli_decompressor::Decompressor`)
and the charset transcoder (`encoding_rs`) are modelled abstractly: arbitrary
pull/emit strategies supplied as parameters, so every theorem about them
quantifies over all possible decoder behaviours.
-/

namespace Ureq

/-- Error kinds reachable from the body pipeline (`Error::BodyExceedsLimit`
and I/O failures surfaced by `Connection::await_input`). -/
inductive Err where
  | BodyExceedsLimit
  | ioErr
deriving DecidableEq, Repr

/-- What the body does with its `Connection` when the flow reports `Reset`:
`connection.close()` or `connection.reuse(now)` (return to the pool stamped
with the time `now`). -/
inductive PoolAction where
  | closed
  | reused (t : Nat)
deriving DecidableEq, Repr

/-- Modelled from the spec: a `Connection` as seen by `UnitHandler::do_read`.
`wire` is the sequence of raw body bytes the transport still has to deliver
(content-length framing, section 4.5); `broken` makes `await_input` fail,
modelling a mid-stream I/O error. -/
structure Connection where
  wire : List Nat
  broken : Bool
deriving DecidableEq, Repr

/-- The `UnitHandler` of `src/body/mod.rs` lines 24-28: the unit plus the
optional `Connection`, plus the `current_time` closure modelled as a counter
(`clock`) that yields its value and ticks on every call.  The flow's terminal
`must_close` flag (spec section 4.5, `Reset{must_close}`) is carried here. -/
structure UnitHandler where
  connection : Option Connection
  mustClose : Bool
  clock : Nat
deriving DecidableEq, Repr

/-- The observable outcome of one `UnitHandler::do_read` call: the new handler
state, `Ok(bytes written to the caller buffer)` or an error, the pool actions
performed on the connection, the number of `poll_event` calls made and
whether `await_input` (transport I/O) was performed. -/
structure ReadResult where
  handler : UnitHandler
  res : Except Err (List Nat)
  actions : List PoolAction
  polls : Nat
  awaited : Bool

/-- `UnitHandler::do_read` (`src/body/mod.rs` lines 82-125).  Samples the
clock first (`now`), returns `Ok(0)` when the connection is already gone,
otherwise polls the flow: a `Reset{must_close}` takes the connection and
closes it or returns it to the pool stamped with `now`, reporting 0 bytes; an
`AwaitInput` performs transport I/O and hands the available input (capped by
the caller's buffer) to the flow, which for a content-length body passes the
bytes through and reports `ResponseBody{amount}` on the second poll. -/
def UnitHandler.do_read (h : UnitHandler) (bufLen : Nat) : ReadResult :=
  let now := h.clock
  match h.connection with
  | none => ⟨{ h with clock := now + 1 }, Except.ok [], [], 0, false⟩
  | some conn =>
    match conn.wire with
    | [] =>
      ⟨{ h with connection := none, clock := now + 2 }, Except.ok [],
        [if h.mustClose then PoolAction.closed else PoolAction.reused now], 1, false⟩
    | w :: ws =>
      if conn.broken then
        ⟨{ h with clock := now + 2 }, Except.error Err.ioErr, [], 1, true⟩
      else
        let maxN := min (w :: ws).length bufLen
        ⟨{ h with
            connection := some ({ conn with wire := (w :: ws).drop maxN }),
            clock := now + 4 },
          Except.ok ((w :: ws).take maxN), [], 2, true⟩

/-- The content-encoding tag (`src/body/mod.rs` lines 128-134). -/
inductive ContentEncoding where
  | None
  | Gzip
  | Brotli
  | Unknown
deriving DecidableEq, Repr

/-- `impl From<&str> for ContentEncoding` (`src/body/mod.rs` lines 372-383):
the exact match on `"gzip"` / `"br"`, anything else is `Unknown`. -/
def ContentEncoding.fromStr (s : String) : ContentEncoding :=
  if s = "gzip" then ContentEncoding.Gzip
  else if s = "br" then ContentEncoding.Brotli
  else ContentEncoding.Unknown

/-- An `http::HeaderMap` restricted to what `ResponseInfo::new` reads: an
ordered list of (lowercased name, value) pairs, where the value is `some s`
when `HeaderValue::to_str` succeeds (ASCII) and `none` when it fails. -/
def HeaderMap := List (String × Option String)

/-- `HeaderMap::get`: the first value stored under `name`. -/
def hget (headers : HeaderMap) (name : String) : Option (Option String) :=
  (headers.find? (fun p => p.1 = name)).map Prod.snd

/-- `split_content_type` (`src/body/mod.rs` lines 158-176): split on `;`, the
first part is the MIME type, and the last `charset=`-led parameter (trimmed)
gives the charset label. -/
def split_content_type (content_type : String) : Option String × Option String :=
  match content_type.splitOn ";" with
  | [] => (none, none)
  | mime_type :: rest =>
    let charset := rest.foldl
      (fun acc part =>
        let part := part.trim
        if part.startsWith "charset=" then some (part.drop 8) else acc)
      none
    (some mime_type, charset)

/-- `ResponseInfo` (`src/body/mod.rs` lines 17-22). -/
structure ResponseInfo where
  content_encoding : ContentEncoding
  mime_type : Option String
  charset : Option String
deriving DecidableEq, Repr

/-- `ResponseInfo::new` (`src/body/mod.rs` lines 136-155): the
content-encoding header is decoded with `to_str` and classified, a missing or
non-ASCII header yielding `ContentEncoding::None`; the content-type header is
split into MIME type and charset label. -/
def ResponseInfo.new (headers : HeaderMap) : ResponseInfo :=
  let content_encoding :=
    match hget headers "content-encoding" with
    | some (some s) => ContentEncoding.fromStr s
    | _ => ContentEncoding.None
  let mc :=
    match hget headers "content-type" with
    | some (some s) => split_content_type s
    | _ => (none, none)
  ⟨content_encoding, mc.1, mc.2⟩

/-- A character encoding as `encoding_rs` exposes it: UTF-8 or some other
labelled encoding. -/
inductive Encoding where
  | utf8
  | other (label : String)
deriving DecidableEq, Repr

/-- Modelled from the spec: the incremental charset transcoder
`CharCodec::new(reader, from, to)` of the (external) `body/charset` module.
`emit` is its abstract transcoding behaviour: output of the i-th read given
the bytes pulled from the inner reader. -/
structure CharCodec where
  src : Encoding
  dst : Encoding
  emit : Nat → List Nat → List Nat
  pulls : Nat

/-- Modelled from the spec: an abstract incremental decompressor (flate2
`MultiGzDecoder` / `brotli_decompressor::Decompressor`).  On the i-th outer
read it pulls `pullSize i` compressed bytes from the inner reader and emits
`emit i raw` decoded bytes — both strategies arbitrary, so theorems quantify
over every decoder behaviour.  `bufferSize` records the internal buffer the
decompressor was constructed with (4096 for brotli). -/
structure Decompressor where
  bufferSize : Nat
  pulls : Nat
  pullSize : Nat → Nat
  emit : Nat → List Nat → List Nat

/-- The external collaborators a `Body` reader is built against: initial gzip
and brotli decompressor states, `encoding_rs::Encoding::for_label`, and the
charset transcoding behaviour. -/
structure Externals where
  gz0 : Decompressor
  br0 : Decompressor
  forLabel : String → Option Encoding
  transcode : Nat → List Nat → List Nat

/-- `LimitReader` (`src/body/mod.rs` lines 309-312).  The `UnitHandlerRef`
(`Shared`/`Owned`) indirection delegates identically in both variants and is
collapsed. -/
structure LimitReader where
  unit_handler : UnitHandler
  left : Nat

/-- Outcome of a `LimitReader` read: new reader state and `Ok(bytes)` or an
error (on error the reader state is whatever the failed `do_read` left). -/
structure LimitRes where
  reader : LimitReader
  res : Except Err (List Nat)

/-- `impl Read for LimitReader` (`src/body/mod.rs` lines 346-364): a read
with `left == 0` fails with `BodyExceedsLimit` before touching the handler;
otherwise the caller's buffer is capped at `left`, the handler read is
performed, and `left` decreases by the bytes obtained. -/
def LimitReader.read (r : LimitReader) (bufLen : Nat) : LimitRes :=
  if r.left = 0 then ⟨r, Except.error Err.BodyExceedsLimit⟩
  else
    match r.unit_handler.do_read (min r.left bufLen) with
    | ⟨handler, Except.error e, _, _, _⟩ => ⟨⟨handler, r.left⟩, Except.error e⟩
    | ⟨handler, Except.ok out, _, _, _⟩ =>
      ⟨⟨handler, r.left - out.length⟩, Except.ok out⟩

/-- `ContentDecoder` (`src/body/mod.rs` lines 287-297), with the gzip and
brotli feature branches enabled; the inner reader is always the
`LimitReader` it is constructed over. -/
inductive ContentDecoder where
  | Gzip (d : Decompressor) (inner : LimitReader)
  | Brotli (d : Decompressor) (inner : LimitReader)
  | PassThrough (inner : LimitReader)

/-- Outcome of a `ContentDecoder` read. -/
structure ContentRes where
  dec : ContentDecoder
  res : Except Err (List Nat)

/-- `impl Read for ContentDecoder` (`src/body/mod.rs` lines 299-307):
`PassThrough` delegates; `Gzip`/`Brotli` pull a chunk of compressed bytes
from the inner reader (the size chosen by the decompressor) and emit decoded
bytes, propagating inner errors. -/
def ContentDecoder.read : ContentDecoder → Nat → ContentRes
  | ContentDecoder.PassThrough inner, bufLen =>
    match inner.read bufLen with
    | ⟨rd, res⟩ => ⟨ContentDecoder.PassThrough rd, res⟩
  | ContentDecoder.Gzip d inner, _ =>
    match inner.read (d.pullSize d.pulls) with
    | ⟨rd, Except.error e⟩ => ⟨ContentDecoder.Gzip d rd, Except.error e⟩
    | ⟨rd, Except.ok raw⟩ =>
      ⟨ContentDecoder.Gzip { d with pulls := d.pulls + 1 } rd,
        Except.ok (d.emit d.pulls raw)⟩
  | ContentDecoder.Brotli d inner, _ =>
    match inner.read (d.pullSize d.pulls) with
    | ⟨rd, Except.error e⟩ => ⟨ContentDecoder.Brotli d rd, Except.error e⟩
    | ⟨rd, Except.ok raw⟩ =>
      ⟨ContentDecoder.Brotli { d with pulls := d.pulls + 1 } rd,
        Except.ok (d.emit d.pulls raw)⟩

/-- The `LimitReader` every `ContentDecoder` variant wraps. -/
def ContentDecoder.innerLimit : ContentDecoder → LimitReader
  | ContentDecoder.Gzip _ inner => inner
  | ContentDecoder.Brotli _ inner => inner
  | ContentDecoder.PassThrough inner => inner

/-- Drive a `ContentDecoder` through a sequence of reads with the given
buffer sizes, stopping at the first error; returns the final decoder, the
per-read outputs and the error if one occurred. -/
def ContentDecoder.run (c : ContentDecoder) :
    List Nat → ContentDecoder × List (List Nat) × Option Err
  | [] => (c, [], none)
  | b :: bs =>
    match c.read b with
    | ⟨dec, Except.error e⟩ => (dec, [], some e)
    | ⟨dec, Except.ok out⟩ =>
      let t := dec.run bs
      (t.1, out :: t.2.1, t.2.2)

/-- `CharsetDecoder` (`src/body/mod.rs` lines 270-276), charset feature
enabled. -/
inductive CharsetDecoder where
  | Decoder (codec : CharCodec) (inner : ContentDecoder)
  | PassThrough (inner : ContentDecoder)

/-- Outcome of a `CharsetDecoder` read. -/
structure CharsetRes where
  dec : CharsetDecoder
  res : Except Err (List Nat)

/-- `impl Read for CharsetDecoder` (`src/body/mod.rs` lines 278-285):
`PassThrough` delegates unchanged; `Decoder` pulls from the inner reader and
emits transcoded bytes, propagating inner errors. -/
def CharsetDecoder.read : CharsetDecoder → Nat → CharsetRes
  | CharsetDecoder.PassThrough inner, bufLen =>
    match inner.read bufLen with
    | ⟨dec, res⟩ => ⟨CharsetDecoder.PassThrough dec, res⟩
  | CharsetDecoder.Decoder codec inner, bufLen =>
    match inner.read bufLen with
    | ⟨dec, Except.error e⟩ => ⟨CharsetDecoder.Decoder codec dec, Except.error e⟩
    | ⟨dec, Except.ok raw⟩ =>
      ⟨CharsetDecoder.Decoder { codec with pulls := codec.pulls + 1 } dec,
        Except.ok (codec.emit codec.pulls raw)⟩

/-- The `ContentDecoder` either `CharsetDecoder` variant wraps. -/
def CharsetDecoder.innerContent : CharsetDecoder → ContentDecoder
  | CharsetDecoder.Decoder _ inner => inner
  | CharsetDecoder.PassThrough inner => inner

/-- `content_decoder` (`src/body/mod.rs` lines 190-221): `None` and
`Unknown` pass through, `Gzip` wraps the reader in the multi-member gzip
decoder, `Brotli` in a brotli decompressor constructed with a 4096-byte
buffer. -/
def content_decoder (gz0 br0 : Decompressor) (reader : LimitReader) :
    ContentEncoding → ContentDecoder
  | ContentEncoding.None => ContentDecoder.PassThrough reader
  | ContentEncoding.Gzip => ContentDecoder.Gzip gz0 reader
  | ContentEncoding.Brotli =>
    ContentDecoder.Brotli { br0 with bufferSize := 4096 } reader
  | ContentEncoding.Unknown => ContentDecoder.PassThrough reader

/-- `charset_decoder` (`src/body/mod.rs` lines 223-262): transcoding is
installed only for `text/` MIME types whose declared charset resolves via
`for_label` to something other than UTF-8 (an absent or unrecognised label
defaults to UTF-8); every other case passes through. -/
def charset_decoder (forLabel : String → Option Encoding)
    (transcode : Nat → List Nat → List Nat)
    (mime_type charset : Option String) (reader : ContentDecoder) :
    CharsetDecoder :=
  let is_text := (mime_type.map (fun m => m.startsWith "text/")).getD false
  if is_text then
    let fromEnc := (charset.bind forLabel).getD Encoding.utf8
    if fromEnc = Encoding.utf8 then CharsetDecoder.PassThrough reader
    else CharsetDecoder.Decoder ⟨fromEnc, Encoding.utf8, transcode, 0⟩ reader
  else CharsetDecoder.PassThrough reader

/-- `BodyReader` (`src/body/mod.rs` lines 178-180): the charset stage over
the content stage over the limit stage. -/
structure BodyReader where
  reader : CharsetDecoder

/-- `BodyReader::new` (`src/body/mod.rs` lines 182-188). -/
def BodyReader.new (ext : Externals) (reader : LimitReader)
    (info : ResponseInfo) : BodyReader :=
  ⟨charset_decoder ext.forLabel ext.transcode info.mime_type info.charset
    (content_decoder ext.gz0 ext.br0 reader info.content_encoding)⟩

/-- Outcome of a `BodyReader` read (`impl Read for BodyReader`,
`src/body/mod.rs` lines 264-268). -/
structure BodyRes where
  reader : BodyReader
  res : Except Err (List Nat)

/-- `impl Read for BodyReader`: delegates to the charset stage. -/
def BodyReader.read (b : BodyReader) (bufLen : Nat) : BodyRes :=
  match b.reader.read bufLen with
  | ⟨dec, res⟩ => ⟨⟨dec⟩, res⟩

/-- The `LimitReader` at the bottom of a `BodyReader`. -/
def BodyReader.innerLimit (b : BodyReader) : LimitReader :=
  b.reader.innerContent.innerLimit

/-- Drive a `BodyReader` through a sequence of reads with the given buffer
sizes, stopping at the first error; returns the final reader, the
concatenation of all bytes handed to the caller, and the error if one
occurred. -/
def BodyReader.run (b : BodyReader) :
    List Nat → BodyReader × List Nat × Option Err
  | [] => (b, [], none)
  | k :: ks =>
    match b.read k with
    | ⟨rd, Except.error e⟩ => (rd, [], some e)
    | ⟨rd, Except.ok out⟩ =>
      let t := rd.run ks
      (t.1, out ++ t.2.1, t.2.2)

/-- Drive a `LimitReader` through a sequence of reads, stopping at the first
error (used to relate `BodyReader` runs to the limit stage). -/
def LimitReader.run (r : LimitReader) :
    List Nat → LimitReader × List Nat × Option Err
  | [] => (r, [], none)
  | k :: ks =>
    match r.read k with
    | ⟨rd, Except.error e⟩ => (rd, [], some e)
    | ⟨rd, Except.ok out⟩ =>
      let t := rd.run ks
      (t.1, out ++ t.2.1, t.2.2)

/-- `Body` (`src/body/mod.rs` lines 12-15). -/
structure Body where
  info : ResponseInfo
  unit_handler : UnitHandler

/-- `Body::as_reader` (`src/body/mod.rs` lines 55-60): a `LimitReader` over
the unit handler with `left = limit`, wrapped by `BodyReader::new`
(`Body::into_reader` builds the identical stack from the owned handler). -/
def Body.as_reader (b : Body) (ext : Externals) (limit : Nat) : BodyReader :=
  BodyReader.new ext ⟨b.unit_handler, limit⟩ b.info

/-- `Read::read_to_end` as `Body::read_to_vec` uses it: repeatedly read with
a caller buffer of `bufLen` bytes, accumulating until a read returns 0 bytes
(`Ok`) or an error (`Err`).  `fuel` bounds the loop; `none` means the fuel
ran out before the loop finished. -/
def readToEndAux (b : BodyReader) (bufLen : Nat) :
    Nat → Option (Except Err (List Nat))
  | 0 => none
  | fuel + 1 =>
    match b.read bufLen with
    | ⟨_, Except.error e⟩ => some (Except.error e)
    | ⟨rd, Except.ok out⟩ =>
      match out with
      | [] => some (Except.ok [])
      | _ :: _ =>
        match readToEndAux rd bufLen fuel with
        | none => none
        | some (Except.error e) => some (Except.error e)
        | some (Except.ok rest) => some (Except.ok (out ++ rest))

/-- `Body::read_to_vec` (`src/body/mod.rs` lines 73-78): `read_to_end` over
`as_reader(limit)`. -/
def Body.read_to_vec (b : Body) (ext : Externals) (limit bufLen fuel : Nat) :
    Option (Except Err (List Nat)) :=
  readToEndAux (b.as_reader ext limit) bufLen fuel

/-- Spec-side condition (section 4.8 of the spec): charset transcoding is
active exactly when the MIME type starts with `text/` and the declared
charset label resolves via `for_label` to an encoding other than UTF-8. -/
def charsetSpecActive (forLabel : String → Option Encoding)
    (mime_type charset : Option String) : Bool :=
  (match mime_type with
   | some m => m.startsWith "text/"
   | none => false)
  && (match charset.bind forLabel with
      | some e => decide (e ≠ Encoding.utf8)
      | none => false)

/-- A body whose response info installs no decoding at all: no
content-encoding, no MIME type (a plain identity pipeline). -/
def passthroughBody (wire : List Nat) (broken mustClose : Bool) (clock : Nat) :
    Body :=
  ⟨⟨ContentEncoding.None, none, none⟩, ⟨some ⟨wire, broken⟩, mustClose, clock⟩⟩

/-- A fully passthrough reader stack over a limit reader. -/
def ptBody (lr : LimitReader) : BodyReader :=
  ⟨CharsetDecoder.PassThrough (ContentDecoder.PassThrough lr)⟩

/-- Trivial concrete externals, for evaluating the pipeline at concrete
inputs. -/
def extTriv : Externals :=
  ⟨⟨0, 0, fun _ => 0, fun _ _ => []⟩, ⟨0, 0, fun _ => 0, fun _ _ => []⟩,
    fun _ => none, fun _ _ => []⟩

/-- Modelled from the spec (section 4.1): the resolver's IP family
preference.  The type lives in the missing `resolver` module. -/
inductive IpFamily where
  | Any
  | Ipv4Only
  | Ipv6Only
  | Ipv6ThenIpv4
  | Ipv4ThenIpv6
deriving DecidableEq, Repr

/-- `RedirectAuthHeaders` of the external `ureq_proto` crate, as the spec
(section 4.5) describes it. -/
inductive RedirectAuthHeaders where
  | Never
  | SameHost
deriving DecidableEq, Repr

/-- `std::time::Duration`, as nanoseconds. -/
structure Duration where
  nanos : Nat
deriving DecidableEq, Repr

/-- `Duration::from_secs`. -/
def Duration.fromSecs (s : Nat) : Duration :=
  ⟨s * 1000000000⟩

/-- Modelled from the spec (sections 3 and 9): a `Proxy` configuration,
env-derived, held behind a shared reference-counted handle so cloning does
not allocate.  Its code is in the missing `proxy` module. -/
structure Proxy where
  uri : String
deriving DecidableEq, Repr

/-- Modelled from the spec (section 9): the middleware chain is a shared
(reference-counted) handle on the registered middleware; `default()` is the
empty chain.  Its code is in the missing `middleware` module.  Middleware
entries are opaque tokens here. -/
def MiddlewareChain := List Nat

/-- `MiddlewareChain::default()`: the empty chain. -/
def MiddlewareChain.default : MiddlewareChain := []

/-- `AutoHeaderValue` (`src/config.rs` lines 472-484): no automatic header,
the default value, or a user-provided value (an `Arc<String>` in the source;
the shared string's content here). -/
inductive AutoHeaderValue where
  | None
  | Default
  | Provided (v : String)
deriving DecidableEq, Repr

/-- `AutoHeaderValue::as_str` (`src/config.rs` lines 492-506): select the
configured string (empty for `None`, `default` for `Default`, the provided
string otherwise) and return `None` when it is empty (`is_empty`), `Some` of
it otherwise. -/
def AutoHeaderValue.as_str (v : AutoHeaderValue) (default : String) :
    Option String :=
  let x :=
    match v with
    | AutoHeaderValue.None => ""
    | AutoHeaderValue.Default => default
    | AutoHeaderValue.Provided s => s
  if x = "" then none else some x

/-- `Timeouts` (`src/config.rs` lines 532-560). -/
structure Timeouts where
  global : Option Duration
  per_call : Option Duration
  resolve : Option Duration
  connect : Option Duration
  send_request : Option Duration
  await_100 : Option Duration
  send_body : Option Duration
  recv_response : Option Duration
  recv_body : Option Duration
deriving DecidableEq, Repr

/-- `impl Default for Timeouts` (`src/config.rs` lines 596-610): everything
`None` except `await_100 = Some(1s)`. -/
def Timeouts.default : Timeouts :=
  ⟨none, none, none, none, none, some (Duration.fromSecs 1), none, none, none⟩

/-- `Config` (`src/config.rs` lines 91-117), with the `_tls` feature branch
(`tls_config`) omitted. -/
structure Config where
  http_status_as_error : Bool
  https_only : Bool
  ip_family : IpFamily
  proxy : Option Proxy
  no_delay : Bool
  max_redirects : Nat
  redirect_auth_headers : RedirectAuthHeaders
  user_agent : AutoHeaderValue
  accept : AutoHeaderValue
  accept_encoding : AutoHeaderValue
  timeouts : Timeouts
  max_response_header_size : Nat
  input_buffer_size : Nat
  output_buffer_size : Nat
  max_idle_connections : Nat
  max_idle_connections_per_host : Nat
  max_idle_age : Duration
  middleware : MiddlewareChain
  force_send_body : Bool

/-- `impl Default for Config` (`src/config.rs` lines 568-594).
`Proxy::try_from_env()` reads the process environment; its result is the
`envProxy` parameter. -/
def Config.defaultWith (envProxy : Option Proxy) : Config where
  http_status_as_error := true
  https_only := false
  ip_family := IpFamily.Any
  proxy := envProxy
  no_delay := true
  max_redirects := 10
  redirect_auth_headers := RedirectAuthHeaders.Never
  user_agent := AutoHeaderValue.Default
  accept := AutoHeaderValue.Default
  accept_encoding := AutoHeaderValue.Default
  timeouts := Timeouts.default
  max_response_header_size := 64 * 1024
  input_buffer_size := 128 * 1024
  output_buffer_size := 128 * 1024
  max_idle_connections := 10
  max_idle_connections_per_host := 3
  max_idle_age := Duration.fromSecs 15
  middleware := MiddlewareChain.default
  force_send_body := false

/-- What `Clone::clone` costs for one field: a plain bit copy (`Copy`
types), a reference-count bump (`Arc`-backed types), or a fresh heap
allocation. -/
inductive CloneCost where
  | copy
  | refBump
  | heapAlloc
deriving DecidableEq, BEq, Repr

/-- Cloning an `AutoHeaderValue`: `None` and `Default` are fieldless,
`Provided` holds an `Arc<String>` (`src/config.rs` line 483), whose clone is
a reference-count bump. -/
def AutoHeaderValue.cloneCost : AutoHeaderValue → CloneCost
  | AutoHeaderValue.None => CloneCost.copy
  | AutoHeaderValue.Default => CloneCost.copy
  | AutoHeaderValue.Provided _ => CloneCost.refBump

/-- Modelled from the spec (section 3): cloning a `Proxy` bumps the
reference count of its shared handle. -/
def Proxy.cloneCost : Proxy → CloneCost := fun _ => CloneCost.refBump

/-- Modelled from the spec (section 9): cloning the middleware chain clones
its shared (persistent) handle, a reference-count bump. -/
def MiddlewareChain.cloneCost : MiddlewareChain → CloneCost :=
  fun _ => CloneCost.refBump

/-- Cloning an `Option` costs nothing beyond its payload. -/
def optionCloneCost (f : α → CloneCost) : Option α → CloneCost
  | none => CloneCost.copy
  | some a => f a

/-- The per-field costs of `Config::clone` (derived `Clone`,
`src/config.rs` line 91), field by field in declaration order: `bool`,
`usize`, `u32`, `Duration`, the fieldless enums and `Timeouts`
(`derive(Clone, Copy)`, line 532) are `Copy`; the `AutoHeaderValue`s,
`proxy` and `middleware` as above. -/
def Config.cloneCosts (c : Config) : List CloneCost :=
  [CloneCost.copy,
   CloneCost.copy,
   CloneCost.copy,
   optionCloneCost Proxy.cloneCost c.proxy,
   CloneCost.copy,
   CloneCost.copy,
   CloneCost.copy,
   c.user_agent.cloneCost,
   c.accept.cloneCost,
   c.accept_encoding.cloneCost,
   CloneCost.copy,
   CloneCost.copy,
   CloneCost.copy,
   CloneCost.copy,
   CloneCost.copy,
   CloneCost.copy,
   CloneCost.copy,
   MiddlewareChain.cloneCost c.middleware,
   CloneCost.copy]

/-! Helper lemmas about the limit stage. -/

theorem do_read_ok_length (h : UnitHandler) (k : Nat) (out : List Nat)
    (hres : (h.do_read k).res = Except.ok out) : out.length ≤ k := by
  rcases h with ⟨conn, mc, ck⟩
  rcases conn with _ | ⟨wire, broken⟩
  · simp only [UnitHandler.do_read] at hres
    cases hres
    simp
  · rcases wire with _ | ⟨w, ws⟩
    · simp only [UnitHandler.do_read] at hres
      cases hres
      simp
    · simp only [UnitHandler.do_read] at hres
      rcases hb : broken
      · rw [hb] at hres
        simp only [Bool.false_eq_true, if_false] at hres
        cases hres
        simp [List.length_take]
      · rw [hb] at hres
        simp at hres

theorem read_ok_left (r : LimitReader) (k : Nat) (out : List Nat)
    (hres : (r.read k).res = Except.ok out) :
    (r.read k).reader.left + out.length = r.left := by
  by_cases h0 : r.left = 0
  · simp [LimitReader.read, h0] at hres
  · rcases hd : r.unit_handler.do_read (min r.left k) with ⟨hd1, res, a, p, w⟩
    have hres2 : res = Except.ok out := by
      simp only [LimitReader.read, h0, if_false, hd] at hres
      rcases res with e | o
      · simp at hres
      · simp only [Except.ok.injEq] at hres
        rw [hres]
    subst hres2
    have hlen : out.length ≤ min r.left k := by
      apply do_read_ok_length r.unit_handler (min r.left k) out
      rw [hd]
    have hle : out.length ≤ r.left := le_trans hlen (Nat.min_le_left _ _)
    simp only [LimitReader.read, h0, if_false, hd]
    omega

theorem read_err_left (r : LimitReader) (k : Nat) (e : Err)
    (hres : (r.read k).res = Except.error e) :
    (r.read k).reader.left = r.left := by
  by_cases h0 : r.left = 0
  · simp [LimitReader.read, h0]
  · rcases hd : r.unit_handler.do_read (min r.left k) with ⟨hd1, res, a, p, w⟩
    simp only [LimitReader.read, h0, if_false, hd] at hres ⊢
    rcases res with e2 | o
    · simp
    · simp at hres

theorem read_left_zero (r : LimitReader) (k : Nat) (h0 : r.left = 0) :
    r.read k = ⟨r, Except.error Err.BodyExceedsLimit⟩ := by
  simp [LimitReader.read, h0]

theorem run_left (ks : List Nat) : ∀ r : LimitReader,
    ((r.run ks).1).left + (r.run ks).2.1.length = r.left := by
  induction ks with
  | nil => intro r; simp [LimitReader.run]
  | cons k ks ih =>
    intro r
    rcases hr : r.read k with ⟨rd, res⟩
    rcases res with e | out
    · have := read_err_left r k e (by rw [hr])
      rw [hr] at this
      simp only [LimitReader.run, hr]
      simpa using this
    · have hsum := read_ok_left r k out (by rw [hr])
      rw [hr] at hsum
      have hsum2 : rd.left + out.length = r.left := by simpa using hsum
      simp only [LimitReader.run, hr]
      have := ih rd
      simp only [List.length_append]
      omega

theorem ptBody_read (lr : LimitReader) (k : Nat) :
    (ptBody lr).read k = ⟨ptBody (lr.read k).reader, (lr.read k).res⟩ := by
  rcases hr : lr.read k with ⟨rd, res⟩
  simp [BodyReader.read, CharsetDecoder.read, ContentDecoder.read, ptBody, hr]

theorem ptBody_run (ks : List Nat) : ∀ lr : LimitReader,
    (ptBody lr).run ks
      = (ptBody ((lr.run ks).1), (lr.run ks).2.1, (lr.run ks).2.2) := by
  induction ks with
  | nil => intro lr; simp [BodyReader.run, LimitReader.run]
  | cons k ks ih =>
    intro lr
    rcases hr : lr.read k with ⟨rd, res⟩
    have hread := ptBody_read lr k
    rw [hr] at hread
    rcases res with e | out
    · simp only [BodyReader.run, LimitReader.run, hread, hr]
    · simp only [BodyReader.run, LimitReader.run, hread, hr, ih rd]

theorem ptBody_innerLimit (lr : LimitReader) : (ptBody lr).innerLimit = lr :=
  rfl

theorem as_reader_pt (ext : Externals) (wire : List Nat) (broken mc : Bool)
    (ck limit : Nat) :
    (passthroughBody wire broken mc ck).as_reader ext limit
      = ptBody ⟨⟨some ⟨wire, broken⟩, mc, ck⟩, limit⟩ :=
  rfl

/-- C1: through the reader obtained from `Body::as_reader(limit)` (identity
pipeline: no content-encoding, no MIME type, so the caller reads the raw wire
bytes), over every sequence of reads the total number of bytes returned to
the caller never exceeds `limit`; and once exactly `limit` bytes have been
yielded, a further read while raw body bytes remain on the connection fails
with `BodyExceedsLimit` — strictly before byte `limit + 1`, never silently
truncating. -/
theorem limit_cap_never_exceeded (ext : Externals) (wire : List Nat)
    (broken mc : Bool) (ck limit : Nat) (bufs : List Nat) :
    ((((passthroughBody wire broken mc ck).as_reader ext limit).run
        bufs).2.1).length ≤ limit ∧
    (((((passthroughBody wire broken mc ck).as_reader ext limit).run
        bufs).2.1).length = limit →
      ∀ c : Connection,
        ((((passthroughBody wire broken mc ck).as_reader ext limit).run
            bufs).1).innerLimit.unit_handler.connection = some c →
        c.wire ≠ [] →
        ∀ k,
          (((((passthroughBody wire broken mc ck).as_reader ext limit).run
              bufs).1).read k).res = Except.error Err.BodyExceedsLimit) := by
  rcases hrun : LimitReader.run ⟨⟨some ⟨wire, broken⟩, mc, ck⟩, limit⟩ bufs
    with ⟨lr1, outs, errOpt⟩
  have hinv := run_left bufs ⟨⟨some ⟨wire, broken⟩, mc, ck⟩, limit⟩
  rw [hrun] at hinv
  have hinv2 : lr1.left + outs.length = limit := by simpa using hinv
  simp only [as_reader_pt, ptBody_run, hrun]
  constructor
  · simpa using show outs.length ≤ limit by omega
  · intro hlen c hconn hwire k
    have hlen2 : outs.length = limit := by simpa using hlen
    have hzero : lr1.left = 0 := by omega
    simp only [ptBody_read, read_left_zero lr1 k hzero]

/-- C1 witness: cap 2 over the 3-byte wire `[1,2,3]`; one read of a 5-byte
buffer yields exactly 2 bytes, one byte remains, and the next read fails
with `BodyExceedsLimit`. -/
theorem limit_cap_never_exceeded_witness :
    ((((passthroughBody [1, 2, 3] false false 0).as_reader extTriv 2).run
        [5]).1.read 1).res = Except.error Err.BodyExceedsLimit :=
  (limit_cap_never_exceeded extTriv [1, 2, 3] false false 0 2 [5]).2
    (by decide) ⟨[3], false⟩ (by decide) (by decide) 1

/-- Reading a passthrough body to the end: while strictly fewer raw bytes
remain than the cap allows, the loop terminates cleanly with all wire
bytes. -/
theorem readToEnd_pt : ∀ fuel wire left mc ck bufLen, wire.length < left →
    1 ≤ bufLen → wire.length + 2 ≤ fuel →
    readToEndAux (ptBody ⟨⟨some ⟨wire, false⟩, mc, ck⟩, left⟩) bufLen fuel
      = some (Except.ok wire) := by
  intro fuel
  induction fuel with
  | zero =>
    intro wire left mc ck bufLen _ _ h3
    omega
  | succ fuel ih =>
    intro wire left mc ck bufLen h1 h2 h3
    have h0 : ¬ left = 0 := by omega
    rcases wire with _ | ⟨w, ws⟩
    · rw [readToEndAux, ptBody_read]
      simp [LimitReader.read, UnitHandler.do_read, h0]
    · have hlc : (w :: ws).length = ws.length + 1 := rfl
      have hkk1 : 1 ≤ min (w :: ws).length (min left bufLen) := by
        rw [hlc]
        omega
      obtain ⟨m, hm⟩ : ∃ m, min (w :: ws).length (min left bufLen) = m + 1 :=
        ⟨min (w :: ws).length (min left bufLen) - 1, by omega⟩
      have hmle : m ≤ ws.length := by
        rw [hlc] at hm
        omega
      have htake : (w :: ws).take (min (w :: ws).length (min left bufLen))
          = w :: ws.take m := by
        rw [hm]
        simp [List.take]
      have hdrop : (w :: ws).drop (min (w :: ws).length (min left bufLen))
          = ws.drop m := by
        rw [hm]
        simp [List.drop]
      have hlentake : (w :: ws.take m).length = m + 1 := by
        simp [List.length_take]
        omega
      rw [readToEndAux, ptBody_read]
      simp only [LimitReader.read, UnitHandler.do_read, h0, if_false,
        Bool.false_eq_true, htake, hdrop]
      have hrec := ih (ws.drop m) (left - (w :: ws.take m).length) mc (ck + 4)
        bufLen
        (by
          rw [hlentake]
          simp only [List.length_drop]
          rw [hlc] at hm h1
          omega)
        h2
        (by
          simp only [List.length_drop]
          rw [hlc] at hm h3
          omega)
      simp only [hrec, List.cons_append]
      rw [List.take_append_drop]

/-- C2 as frozen is false on the code: for a wire body of exactly `limit`
bytes (here one byte with cap 1, a body that does not exceed the cap),
`read_to_vec(limit)` fails with `BodyExceedsLimit`: after the body is
drained `left` is 0, and the final read of the `read_to_end` loop errors
before it can observe the clean end of body. -/
theorem read_to_vec_at_cap_fails :
    (passthroughBody [7] false false 0).read_to_vec extTriv 1 1 3
      = some (Except.error Err.BodyExceedsLimit) :=
  rfl

/-- C2 amended: for every raw wire body containing strictly fewer than
`limit` bytes, reading the body to completion through
`Body::as_reader(limit)` via `read_to_vec` (the `read_to_end` loop with any
chunk size ≥ 1 and enough fuel) succeeds, returning all body bytes and no
`BodyExceedsLimit` error. -/
theorem read_to_vec_below_cap (ext : Externals) (wire : List Nat) (mc : Bool)
    (ck limit bufLen fuel : Nat) (hlt : wire.length < limit)
    (hbuf : 1 ≤ bufLen) (hfuel : wire.length + 2 ≤ fuel) :
    (passthroughBody wire false mc ck).read_to_vec ext limit bufLen fuel
      = some (Except.ok wire) := by
  unfold Body.read_to_vec
  rw [as_reader_pt]
  exact readToEnd_pt fuel wire limit mc ck bufLen hlt hbuf hfuel

/-- C2 witness: a 1-byte body under cap 2 is returned whole by
`read_to_vec`. -/
theorem read_to_vec_below_cap_witness :
    (passthroughBody [5] false false 0).read_to_vec extTriv 2 1 3
      = some (Except.ok [5]) :=
  read_to_vec_below_cap extTriv [5] false 0 2 1 3 (by decide) (by decide)
    (by decide)

/-! Helper lemmas for the layering claim. -/

theorem charset_innerContent (fl : String → Option Encoding)
    (tr : Nat → List Nat → List Nat) (mime cs : Option String)
    (inner : ContentDecoder) :
    (charset_decoder fl tr mime cs inner).innerContent = inner := by
  simp only [charset_decoder]
  split_ifs <;> rfl

theorem content_innerLimit (gz br : Decompressor) (r : LimitReader)
    (ce : ContentEncoding) : (content_decoder gz br r ce).innerLimit = r := by
  cases ce <;> rfl

theorem gzip_run_emit_indep (bufSize : Nat) (pullSize : Nat → Nat)
    (emitA emitB : Nat → List Nat → List Nat) :
    ∀ (bufs : List Nat) (p : Nat) (lr : LimitReader),
      ((ContentDecoder.Gzip ⟨bufSize, p, pullSize, emitA⟩ lr).run
          bufs).1.innerLimit
        = ((ContentDecoder.Gzip ⟨bufSize, p, pullSize, emitB⟩ lr).run
            bufs).1.innerLimit ∧
      ((ContentDecoder.Gzip ⟨bufSize, p, pullSize, emitA⟩ lr).run bufs).2.2
        = ((ContentDecoder.Gzip ⟨bufSize, p, pullSize, emitB⟩ lr).run
            bufs).2.2 := by
  intro bufs
  induction bufs with
  | nil => intro p lr; exact ⟨rfl, rfl⟩
  | cons b bs ih =>
    intro p lr
    rcases hr : lr.read (pullSize p) with ⟨rd, res⟩
    rcases res with e | raw
    · exact ⟨by simp only [ContentDecoder.run, ContentDecoder.read, hr]; rfl,
        by simp only [ContentDecoder.run, ContentDecoder.read, hr]⟩
    · rcases ih (p + 1) rd with ⟨ih1, ih2⟩
      constructor
      · simp only [ContentDecoder.run, ContentDecoder.read, hr]
        exact ih1
      · simp only [ContentDecoder.run, ContentDecoder.read, hr]
        exact ih2

theorem brotli_run_emit_indep (bufSize : Nat) (pullSize : Nat → Nat)
    (emitA emitB : Nat → List Nat → List Nat) :
    ∀ (bufs : List Nat) (p : Nat) (lr : LimitReader),
      ((ContentDecoder.Brotli ⟨bufSize, p, pullSize, emitA⟩ lr).run
          bufs).1.innerLimit
        = ((ContentDecoder.Brotli ⟨bufSize, p, pullSize, emitB⟩ lr).run
            bufs).1.innerLimit ∧
      ((ContentDecoder.Brotli ⟨bufSize, p, pullSize, emitA⟩ lr).run bufs).2.2
        = ((ContentDecoder.Brotli ⟨bufSize, p, pullSize, emitB⟩ lr).run
            bufs).2.2 := by
  intro bufs
  induction bufs with
  | nil => intro p lr; exact ⟨rfl, rfl⟩
  | cons b bs ih =>
    intro p lr
    rcases hr : lr.read (pullSize p) with ⟨rd, res⟩
    rcases res with e | raw
    · exact ⟨by simp only [ContentDecoder.run, ContentDecoder.read, hr]; rfl,
        by simp only [ContentDecoder.run, ContentDecoder.read, hr]⟩
    · rcases ih (p + 1) rd with ⟨ih1, ih2⟩
      constructor
      · simp only [ContentDecoder.run, ContentDecoder.read, hr]
        exact ih1
      · simp only [ContentDecoder.run, ContentDecoder.read, hr]
        exact ih2

/-- C3: `Body::as_reader` layers the reader exactly as `CharsetDecoder` over
`ContentDecoder` over `LimitReader` over the unit handler, with the limit
stage holding the full cap directly over the raw wire bytes; and for the
gzip and brotli stages, the error outcome of any read sequence (in
particular whether `BodyExceedsLimit` is raised) and the final state of the
limit stage depend only on the compressed bytes pulled from the connection —
two decoders with identical pull behaviour but arbitrarily different
decoded outputs agree on both. -/
theorem body_reader_layering (ext : Externals) (b : Body) (limit : Nat) :
    (b.as_reader ext limit
      = ⟨charset_decoder ext.forLabel ext.transcode b.info.mime_type
          b.info.charset
          (content_decoder ext.gz0 ext.br0 ⟨b.unit_handler, limit⟩
            b.info.content_encoding)⟩) ∧
    (b.as_reader ext limit).innerLimit = ⟨b.unit_handler, limit⟩ ∧
    (∀ (bufSize p : Nat) (pullSize : Nat → Nat)
        (emitA emitB : Nat → List Nat → List Nat) (lr : LimitReader)
        (bufs : List Nat),
      ((ContentDecoder.Gzip ⟨bufSize, p, pullSize, emitA⟩ lr).run bufs).2.2
          = ((ContentDecoder.Gzip ⟨bufSize, p, pullSize, emitB⟩ lr).run
              bufs).2.2 ∧
      ((ContentDecoder.Gzip ⟨bufSize, p, pullSize, emitA⟩ lr).run
          bufs).1.innerLimit
        = ((ContentDecoder.Gzip ⟨bufSize, p, pullSize, emitB⟩ lr).run
            bufs).1.innerLimit) ∧
    (∀ (bufSize p : Nat) (pullSize : Nat → Nat)
        (emitA emitB : Nat → List Nat → List Nat) (lr : LimitReader)
        (bufs : List Nat),
      ((ContentDecoder.Brotli ⟨bufSize, p, pullSize, emitA⟩ lr).run bufs).2.2
          = ((ContentDecoder.Brotli ⟨bufSize, p, pullSize, emitB⟩ lr).run
              bufs).2.2 ∧
      ((ContentDecoder.Brotli ⟨bufSize, p, pullSize, emitA⟩ lr).run
          bufs).1.innerLimit
        = ((ContentDecoder.Brotli ⟨bufSize, p, pullSize, emitB⟩ lr).run
            bufs).1.innerLimit) := by
  refine ⟨rfl, ?_, ?_, ?_⟩
  · show (charset_decoder ext.forLabel ext.transcode b.info.mime_type
      b.info.charset (content_decoder ext.gz0 ext.br0 ⟨b.unit_handler, limit⟩
        b.info.content_encoding)).innerContent.innerLimit = _
    rw [charset_innerContent, content_innerLimit]
  · intro bufSize p pullSize emitA emitB lr bufs
    rcases gzip_run_emit_indep bufSize pullSize emitA emitB bufs p lr
      with ⟨h1, h2⟩
    exact ⟨h2, h1⟩
  · intro bufSize p pullSize emitA emitB lr bufs
    rcases brotli_run_emit_indep bufSize pullSize emitA emitB bufs p lr
      with ⟨h1, h2⟩
    exact ⟨h2, h1⟩

/-- C4: charset transcoding is installed if and only if the MIME type starts
with `text/` and the declared charset label resolves through `for_label` to
an encoding other than UTF-8 (`charsetSpecActive`); in every other case the
charset stage is the pass-through variant, whose reads hand the inner
stage's bytes to the caller unchanged. -/
theorem charset_transcoding_iff (fl : String → Option Encoding)
    (tr : Nat → List Nat → List Nat) (mime cs : Option String)
    (inner : ContentDecoder) :
    (charset_decoder fl tr mime cs inner
      = if charsetSpecActive fl mime cs
        then CharsetDecoder.Decoder
          ⟨(cs.bind fl).getD Encoding.utf8, Encoding.utf8, tr, 0⟩ inner
        else CharsetDecoder.PassThrough inner) ∧
    (∀ (d : ContentDecoder) (k : Nat),
      (CharsetDecoder.PassThrough d).read k
        = ⟨CharsetDecoder.PassThrough ((d.read k).dec), (d.read k).res⟩) := by
  constructor
  · by_cases hact : charsetSpecActive fl mime cs = true
    · rw [if_pos hact]
      rcases mime with _ | m
      · simp [charsetSpecActive] at hact
      · simp only [charsetSpecActive, Bool.and_eq_true] at hact
        obtain ⟨h1, h2⟩ := hact
        rcases hcb : cs.bind fl with _ | e
        · rw [hcb] at h2
          simp at h2
        · rw [hcb] at h2
          simp only [decide_eq_true_eq] at h2
          simp [charset_decoder, h1, hcb, h2]
    · rw [if_neg hact]
      rcases mime with _ | m
      · simp [charset_decoder]
      · simp only [charsetSpecActive, Bool.and_eq_true] at hact
        by_cases h1 : m.startsWith "text/" = true
        · have h2 : ¬ (match cs.bind fl with
              | some e => decide (e ≠ Encoding.utf8)
              | none => false) = true := fun h => hact ⟨h1, h⟩
          rcases hcb : cs.bind fl with _ | e
          · simp [charset_decoder, h1, hcb]
          · rw [hcb] at h2
            simp only [decide_eq_true_eq] at h2
            have he : e = Encoding.utf8 := not_not.mp h2
            simp [charset_decoder, h1, hcb, he]
        · have h1f : m.startsWith "text/" = false := by
            revert h1
            cases m.startsWith "text/" <;> simp
          simp [charset_decoder, h1f]
  · intro d k
    rcases hd : d.read k with ⟨dec, res⟩
    simp [CharsetDecoder.read, hd]

/-- C5: the content-encoding header classifies into exactly the four tags:
`"gzip"` to `Gzip`, `"br"` to `Brotli`, any other string (case-sensitively,
so `"GZIP"` included) to `Unknown`, and a missing or non-ASCII header to
`None`; the content decoder reads `None` and `Unknown` through
`PassThrough`, `Gzip` through the (multi-member) gzip decoder and `Brotli`
through a brotli decompressor constructed with a 4096-byte buffer. -/
theorem content_encoding_classification :
    (∀ s : String, ContentEncoding.fromStr s
      = if s = "gzip" then ContentEncoding.Gzip
        else if s = "br" then ContentEncoding.Brotli
        else ContentEncoding.Unknown) ∧
    ContentEncoding.fromStr "GZIP" = ContentEncoding.Unknown ∧
    (∀ s, (ResponseInfo.new [("content-encoding", some s)]).content_encoding
      = ContentEncoding.fromStr s) ∧
    (ResponseInfo.new []).content_encoding = ContentEncoding.None ∧
    (ResponseInfo.new [("content-encoding", none)]).content_encoding
      = ContentEncoding.None ∧
    (∀ (gz br : Decompressor) (lr : LimitReader),
      content_decoder gz br lr ContentEncoding.None
          = ContentDecoder.PassThrough lr ∧
      content_decoder gz br lr ContentEncoding.Unknown
          = ContentDecoder.PassThrough lr ∧
      content_decoder gz br lr ContentEncoding.Gzip
          = ContentDecoder.Gzip gz lr ∧
      content_decoder gz br lr ContentEncoding.Brotli
          = ContentDecoder.Brotli ({ br with bufferSize := 4096 }) lr) := by
  refine ⟨fun _ => rfl, by decide, fun s => ?_, rfl, ?_,
    fun _ _ _ => ⟨rfl, rfl, rfl, rfl⟩⟩
  · simp [ResponseInfo.new, hget]
  · simp [ResponseInfo.new, hget]

/-- C6: when a read polls the flow and the event is `Reset{must_close}`, the
body relinquishes its connection exactly once — closing it when
`must_close` and otherwise returning it to the pool stamped with the time
sampled at the start of the read (the entry clock, even though later clock
samples occur) — the read reports 0 bytes, and any subsequent read performs
no further pool action. -/
theorem reset_relinquishes_once (broken mc : Bool) (ck bufLen : Nat) :
    UnitHandler.do_read ⟨some ⟨[], broken⟩, mc, ck⟩ bufLen
      = ⟨⟨none, mc, ck + 2⟩, Except.ok [],
          [if mc then PoolAction.closed else PoolAction.reused ck], 1,
          false⟩ ∧
    (∀ k, (UnitHandler.do_read ⟨none, mc, ck + 2⟩ k).actions = []) :=
  ⟨rfl, fun _ => rfl⟩

/-- C7: `Config::default()` and `Timeouts::default()` produce exactly the
documented defaults, for any environment-derived proxy. -/
theorem config_defaults (envProxy : Option Proxy) :
    (Config.defaultWith envProxy).http_status_as_error = true ∧
    (Config.defaultWith envProxy).https_only = false ∧
    (Config.defaultWith envProxy).ip_family = IpFamily.Any ∧
    (Config.defaultWith envProxy).no_delay = true ∧
    (Config.defaultWith envProxy).max_redirects = 10 ∧
    (Config.defaultWith envProxy).redirect_auth_headers
      = RedirectAuthHeaders.Never ∧
    (Config.defaultWith envProxy).user_agent = AutoHeaderValue.Default ∧
    (Config.defaultWith envProxy).accept = AutoHeaderValue.Default ∧
    (Config.defaultWith envProxy).accept_encoding = AutoHeaderValue.Default ∧
    (Config.defaultWith envProxy).max_response_header_size = 65536 ∧
    (Config.defaultWith envProxy).input_buffer_size = 131072 ∧
    (Config.defaultWith envProxy).output_buffer_size = 131072 ∧
    (Config.defaultWith envProxy).max_idle_connections = 10 ∧
    (Config.defaultWith envProxy).max_idle_connections_per_host = 3 ∧
    (Config.defaultWith envProxy).max_idle_age = Duration.fromSecs 15 ∧
    (Config.defaultWith envProxy).middleware = MiddlewareChain.default ∧
    MiddlewareChain.default = ([] : List Nat) ∧
    (Config.defaultWith envProxy).timeouts.global = none ∧
    (Config.defaultWith envProxy).timeouts.per_call = none ∧
    (Config.defaultWith envProxy).timeouts.resolve = none ∧
    (Config.defaultWith envProxy).timeouts.connect = none ∧
    (Config.defaultWith envProxy).timeouts.send_request = none ∧
    (Config.defaultWith envProxy).timeouts.await_100
      = some (Duration.fromSecs 1) ∧
    (Config.defaultWith envProxy).timeouts.send_body = none ∧
    (Config.defaultWith envProxy).timeouts.recv_response = none ∧
    (Config.defaultWith envProxy).timeouts.recv_body = none :=
  ⟨rfl, rfl, rfl, rfl, rfl, rfl, rfl, rfl, rfl, rfl, rfl, rfl, rfl, rfl,
    rfl, rfl, rfl, rfl, rfl, rfl, rfl, rfl, rfl, rfl, rfl, rfl⟩

/-- C8: cloning a `Config` never allocates: every field's clone is a plain
copy or a reference-count bump (`Arc`-backed shared strings and the shared
middleware handle), for every `Config` value. -/
theorem config_clone_no_alloc (c : Config) :
    c.cloneCosts.count CloneCost.heapAlloc = 0 := by
  rcases c with ⟨b1, b2, fam, proxy, nd, mr, rah, ua, ac, ae, tmo, m1, m2, m3,
    m4, m5, age, mw, fsb⟩
  cases ua <;> cases ac <;> cases ae <;> cases proxy <;> rfl

/-- C9: once the connection has been relinquished (`connection == None`),
every subsequent `do_read` returns `Ok(0)` for any output buffer, without
polling the flow or performing I/O, leaving the handler relinquished — so
end-of-body reads are idempotent and cannot fail below the limit layer. -/
theorem relinquished_reads_zero (mc : Bool) (ck bufLen bufLen2 : Nat) :
    UnitHandler.do_read ⟨none, mc, ck⟩ bufLen
      = ⟨⟨none, mc, ck + 1⟩, Except.ok [], [], 0, false⟩ ∧
    UnitHandler.do_read
        (UnitHandler.do_read ⟨none, mc, ck⟩ bufLen).handler bufLen2
      = ⟨⟨none, mc, ck + 2⟩, Except.ok [], [], 0, false⟩ :=
  ⟨rfl, rfl⟩

/-- C10: `AutoHeaderValue::as_str` yields `None` exactly when the selected
string is empty: the `None` variant always, `Provided(s)` exactly on the
empty string (behaving exactly like the `None` variant), and `Default`
yields the default exactly when it is non-empty. -/
theorem auto_header_empty_is_none (dflt s : String) :
    AutoHeaderValue.as_str AutoHeaderValue.None dflt = none ∧
    AutoHeaderValue.as_str (AutoHeaderValue.Provided s) dflt
      = (if s = "" then none else some s) ∧
    AutoHeaderValue.as_str AutoHeaderValue.Default dflt
      = (if dflt = "" then none else some dflt) ∧
    AutoHeaderValue.as_str (AutoHeaderValue.Provided "") dflt
      = AutoHeaderValue.as_str AutoHeaderValue.None dflt :=
  ⟨rfl, rfl, rfl, rfl⟩

end Ureq
